import Mathlib

/-!
Verification of the `tk-shotgun-r8spublish` repository.

This file gives a shallow embedding, in Lean 4, of the parts of the
repository that the frozen claims C1..C10 are about:

* `src/python/draft/DraftParamParser.py` — `ParseParamFile_TypeAgnostic`,
  `ReplaceFilenameHashesWithNumber`, `FrameRangeToFrames`;
* `src/python/draft/DraftASCCDLReader.py` — `ReadASCCDL`;
* `src/hooks/publish_file.py` — the publish plugin's `accept`, `validate`,
  `get_publish_version`, `get_publish_type`, `_get_publish_path` and
  `_get_next_version_info` methods;
* `src/app.py` — `R8SPublish.init_app` and `create_publish_manager`.

Modelling conventions, used throughout:

* Python strings are `List Char`; Python `None`-able values are `Option`;
  raised exceptions are `Except.error` carrying the message text.
* Host-toolkit primitives (the `sgtk` template objects, the `path_info`
  hook utilities, the Shotgun query helpers) are code of the host, not of
  this repository; they are modelled as total oracle functions carried in
  structures (`VTemplate`, `HookEnv`), so every theorem quantifies over
  all possible host behaviours.
* Python truthiness is modelled explicitly where the source relies on it
  (`if not path:` is true for both `None` and `""`; `if work_fields:` is
  false for both `None` and the empty dict; `if publish_version:` is
  false for `None` and `0`).
* The one unbounded loop of the sources (the `while` loop of
  `FrameRangeToFrames` with a step of `0`, which never terminates in
  Python) is modelled as an `Except.error` marked `nontermination`; every
  other recursion is given exact structural fuel so that all definitions
  evaluate by `rfl`/`decide`.
-/

/-! ## Python-level primitives shared by the embeddings -/

/-- Python's `\s` character class (`[ \t\n\r\f\v]`, ASCII). -/
def isSpaceChar (c : Char) : Bool :=
  c = ' ' || c = '\t' || c = '\n' || c = '\r' || c = '\x0b' || c = '\x0c'

/-- ASCII decimal digit test, Python's `\d` (ASCII). -/
def isDigitChar (c : Char) : Bool :=
  '0' ≤ c && c ≤ '9'

/-- The decimal digit characters, by value. -/
def digitChar : Nat → Char
  | 0 => '0' | 1 => '1' | 2 => '2' | 3 => '3' | 4 => '4'
  | 5 => '5' | 6 => '6' | 7 => '7' | 8 => '8' | _ => '9'

/-- Numeric value of a decimal digit character. -/
def charVal (c : Char) : Nat := c.toNat - 48

/-- Value of a big-endian string of decimal digits. -/
def digitsToNat (l : List Char) : Nat :=
  l.foldl (fun a c => 10 * a + charVal c) 0

/-- Big-endian decimal digits of `n` (empty for `0`); `fuel ≥ n` makes it
exact.  Mirrors the usual div/mod construction so that it evaluates by
`rfl`. -/
def natDigitsAux : Nat → Nat → List Char
  | 0, _ => []
  | fuel + 1, n => if n = 0 then [] else natDigitsAux fuel (n / 10) ++ [digitChar (n % 10)]

/-- Python's `str` of a nonnegative integer. -/
def natToStr (n : Nat) : List Char :=
  if n = 0 then ['0'] else natDigitsAux n n

/-- Python's `str` of an integer. -/
def intToStr (z : Int) : List Char :=
  if z < 0 then '-' :: natToStr z.natAbs else natToStr z.toNat

/-- A nonempty all-digit string, as Python's `int` requires after the
optional sign. -/
def digitsVal (ds : List Char) : Option Nat :=
  if ds ≠ [] ∧ ds.all isDigitChar then some (digitsToNat ds) else none

/-- Strip leading and trailing whitespace, as Python's `int()` does. -/
def stripWs (s : List Char) : List Char :=
  ((s.dropWhile isSpaceChar).reverse.dropWhile isSpaceChar).reverse

/-- Python's `int(s)` on a string: optional surrounding whitespace, an
optional single sign, then one or more decimal digits; anything else
raises `ValueError` (modelled as `none`). -/
def pyInt (s : List Char) : Option Int :=
  if (stripWs s).head? = some '-' then
    (digitsVal ((stripWs s).drop 1)).map (fun m : Nat => -(m : Int))
  else if (stripWs s).head? = some '+' then
    (digitsVal ((stripWs s).drop 1)).map (fun m : Nat => (m : Int))
  else
    (digitsVal (stripWs s)).map (fun m : Nat => (m : Int))

/-! ## DraftParamParser.ParseParamFile_TypeAgnostic (claim C6)

The source (`DraftParamParser.py`, lines 131-159) reads the file line by
line (`readline` keeps a trailing `'\n'`, which the loop strips), skips
lines that are empty or start with `'#'`, splits every other line at the
first `'='` (`arg.split('=', 1)`) raising `StandardError` when there is
none, and stores `params[key] = value` in a dict, so a later line for a
key overrides an earlier one.  The embedding takes the list of lines
(already stripped of their newline, exactly what the loop body sees) and
models the dict as a lookup function. -/

/-- Split a line at its first `'='`: Python's `arg.split('=', 1)`,
`none` when the line has no `'='` (`len(argParts) < 2`). -/
def splitEqOnce : List Char → Option (List Char × List Char)
  | [] => none
  | c :: r =>
    if c = '=' then some ([], r)
    else (splitEqOnce r).map (fun p => (c :: p.1, p.2))

/-- The `StandardError` message built by the source for a line without
`'='`. -/
def badArgMsg (l : List Char) : List Char :=
  ("Bad argument: ").toList ++ l ++ (".  Should be in the form 'arg=value'.").toList

/-- The parameter-file loop of `ParseParamFile_TypeAgnostic`, with the
accumulated dict as a lookup function. -/
def parseParamLines : List (List Char) → (List Char → Option (List Char)) →
    Except (List Char) (List Char → Option (List Char))
  | [], params => .ok params
  | l :: ls, params =>
    if l ≠ [] ∧ l.head? ≠ some '#' then
      match splitEqOnce l with
      | none => .error (badArgMsg l)
      | some kv => parseParamLines ls (fun q => if q = kv.1 then some kv.2 else params q)
    else parseParamLines ls params

/-- `ParseParamFile_TypeAgnostic`, starting from the empty dict.  The
`open`/`readline` I/O is environmental; its failure path re-raises and is
outside the parsing behaviour the claim describes. -/
def ParseParamFile_TypeAgnostic (lines : List (List Char)) :
    Except (List Char) (List Char → Option (List Char)) :=
  parseParamLines lines (fun _ => none)

/-- A line the loop does not skip: nonempty and not starting with `'#'`. -/
def activeLine (l : List Char) : Bool :=
  decide (l ≠ [] ∧ l.head? ≠ some '#')

/-- The key/value a line contributes, if any. -/
def lineKV (l : List Char) : Option (List Char × List Char) :=
  if activeLine l then splitEqOnce l else none

/-- Specification-side description of the final dict: the value for key
`k` contributed by the latest non-skipped line with that key — a later
line overrides an earlier one, so the tail of the list takes
precedence. -/
def lastValueFor : List (List Char) → List Char → Option (List Char)
  | [], _ => none
  | l :: ls, k =>
    match lastValueFor ls k with
    | some v => some v
    | none => (lineKV l).bind (fun kv => if kv.1 = k then some kv.2 else none)

/-- An active line with no `'='`: the loop raises on the first of these. -/
def badLine (l : List Char) : Bool :=
  activeLine l && (splitEqOnce l).isNone

/-! ## DraftParamParser.ReplaceFilenameHashesWithNumber (claim C10)

The source (`DraftParamParser.py`, lines 200-216) splits the path with
`re.split('#*', path)` — in Python 2 `re.split` skips zero-width matches,
so this splits on the maximal nonempty runs of `'#'` — raises when there
is more than one run, and otherwise builds a `%`-format string
(`pre + '%k.kd' + post`, or `root + "%4.4d" + ext` via
`os.path.splitext` when there is no run) and applies it to `n`.  Note
line 208, `s.replace("%", "%%")`, discards its result (strings are
immutable; the return value is not assigned), so raw `'%'` characters of
the path survive into the format string. -/

/-- `re.split('#*', path)` under Python 2's skip-empty-match rule: split
on each maximal nonempty run of `'#'`.  `inRun` records whether the
previous character was part of a run (the piece after it has already been
started as `acc = []`). -/
def splitHashAux : List Char → List Char → Bool → List (List Char)
  | [], acc, _ => [acc.reverse]
  | c :: rest, acc, inRun =>
    if c = '#' then
      if inRun then splitHashAux rest acc true
      else acc.reverse :: splitHashAux rest [] true
    else splitHashAux rest (c :: acc) false

def splitHashRuns (p : List Char) : List (List Char) :=
  splitHashAux p [] false

/-- Index of the last occurrence of `c`, Python's `str.rfind`. -/
def lastIdxOfAux (c : Char) : List Char → Nat → Option Nat
  | [], _ => none
  | x :: r, i =>
    match lastIdxOfAux c r (i + 1) with
    | some j => some j
    | none => if x = c then some i else none

def lastIdxOf (c : Char) (l : List Char) : Option Nat :=
  lastIdxOfAux c l 0

/-- `os.path.splitext` (posixpath): split at the last `'.'` that lies
after the last `'/'`, except when the file name up to that dot is all
dots. -/
def splitext (p : List Char) : List Char × List Char :=
  let sepIndex : Int := match lastIdxOf '/' p with | some i => (i : Int) | none => -1
  match lastIdxOf '.' p with
  | none => (p, [])
  | some d =>
    if sepIndex < (d : Int) then
      let fstart := (sepIndex + 1).toNat
      if ((p.drop fstart).take (d - fstart)).any (fun c => c ≠ '.') then
        (p.take d, p.drop d)
      else (p, [])
    else (p, [])

/-- Zero-pad `n` to `prec` digits (the precision of a `%k.kd` conversion),
then space-pad to `width`; the sign precedes the zero padding, as in
Python's `%`-formatting of `int`. -/
def formatDInt (n : Int) (width prec : Nat) : List Char :=
  let ds := natToStr n.natAbs
  let ds2 := if ds.length < prec then List.replicate (prec - ds.length) '0' ++ ds else ds
  let s := if n < 0 then '-' :: ds2 else ds2
  if s.length < width then List.replicate (width - s.length) ' ' ++ s else s

/-- Python's `fmt % n` for a single `int` argument, on the fragment of the
format language these sources produce: `%%` escapes, `width[.precision]d`
conversions, and the error cases Python raises around them — a second
conversion (`not enough arguments for format string`), an unknown
conversion character, a trailing `%`, and an unconverted argument at the
end (`not all arguments converted during string formatting`).  `used`
records whether the single argument has been consumed; the fuel is
structural and exact (`fmt.length + 1`). -/
def pyFormatDAux : Nat → List Char → Int → Bool → Except (List Char) (List Char)
  | 0, _, _, _ => .error ("format fuel exhausted").toList
  | fuel + 1, s, n, used =>
    match s with
    | [] =>
      if used then .ok []
      else .error ("not all arguments converted during string formatting").toList
    | '%' :: rest =>
      match rest with
      | '%' :: r => (pyFormatDAux fuel r n used).map (fun t => '%' :: t)
      | _ =>
        let w := rest.takeWhile isDigitChar
        let r1 := rest.dropWhile isDigitChar
        match r1 with
        | '.' :: r2 =>
          let pr := r2.takeWhile isDigitChar
          let r3 := r2.dropWhile isDigitChar
          match r3 with
          | 'd' :: r4 =>
            if used then .error ("not enough arguments for format string").toList
            else (pyFormatDAux fuel r4 n true).map
              (fun t => formatDInt n (digitsToNat w) (digitsToNat pr) ++ t)
          | _ :: _ => .error ("unsupported format character").toList
          | [] => .error ("incomplete format").toList
        | 'd' :: r4 =>
          if used then .error ("not enough arguments for format string").toList
          else (pyFormatDAux fuel r4 n true).map
            (fun t => formatDInt n (digitsToNat w) 0 ++ t)
        | _ :: _ => .error ("unsupported format character").toList
        | [] => .error ("incomplete format").toList
    | c :: rest => (pyFormatDAux fuel rest n used).map (fun t => c :: t)

def pyFormatD (fmt : List Char) (n : Int) : Except (List Char) (List Char) :=
  pyFormatDAux (fmt.length + 1) fmt n false

/-- `ReplaceFilenameHashesWithNumber(path, n)`, `DraftParamParser.py`
lines 200-216.  The dead `s.replace("%", "%%")` of line 208 is modelled
by what it actually does in the source: nothing. -/
def ReplaceFilenameHashesWithNumber (path : List Char) (n : Int) :
    Except (List Char) (List Char) :=
  let sSplit := splitHashRuns path
  if sSplit.length > 2 then
    .error ("Provided sequence must contain no more than one contiguous sequence of '#' symbols to be replaced.").toList
  else
    let s := path
    match sSplit with
    | [pre, post] =>
      let numHashes := s.length - pre.length - post.length
      pyFormatD (pre ++ '%' :: natToStr numHashes ++ '.' :: natToStr numHashes ++ 'd' :: post) n
    | _ =>
      let se := splitext s
      pyFormatD (se.1 ++ ('%' :: '4' :: '.' :: '4' :: 'd' :: []) ++ se.2) n

/-! ## DraftASCCDLReader.ReadASCCDL (claim C5)

The source (`DraftASCCDLReader.py`) wraps everything in one `try`: parse
the XML file, take the first `Slope`, `Offset`, `Power` and `Saturation`
elements, whitespace-split their text, convert the first three components
of slope/offset/power and the first component of saturation to `float`
(in-place, interleaved by index `i = 0,1,2`), and call
`Draft.LUT.CreateASCCDL` on the results.  On any exception it re-raises
when `raiseExceptionOnError` is true (the default) and prints a warning
and returns `None` otherwise.

Modelling: the parsed XML document is a `CDLDoc` (for each tag, the list
of that tag's elements in document order, each carrying its
`firstChild.nodeValue` text, or `none` when it has no first child); the
`float()` conversion is an arbitrary oracle `pf : List Char → Option V`
into an arbitrary value type `V`, `none` modelling `ValueError`
(IEEE-float identity is irrelevant to the claim); `Draft.LUT.CreateASCCDL`
is modelled as the `DraftLUT` record of exactly the data passed to it —
note the source converts the lists in place, so entries past index 2 stay
strings, hence `List Char ⊕ V` entries. -/

/-- Whitespace-split, Python's `str.split()` with no arguments: maximal
nonempty runs of non-whitespace. -/
def pySplitWs : List Char → List Char → List (List Char)
  | [], [] => []
  | [], acc => [acc.reverse]
  | c :: r, acc =>
    if isSpaceChar c then
      if acc = [] then pySplitWs r [] else acc.reverse :: pySplitWs r []
    else pySplitWs r (c :: acc)

/-- A parsed CDL document: for each tag name used by the reader, the
`firstChild` text of each element with that tag, in document order
(`none` = element with no first child). -/
structure CDLDoc where
  slopeEls : List (Option (List Char))
  offsetEls : List (Option (List Char))
  powerEls : List (Option (List Char))
  saturationEls : List (Option (List Char))

/-- The record of data handed to `Draft.LUT.CreateASCCDL`. -/
structure DraftLUT (V : Type) where
  slope : List (List Char ⊕ V)
  offset : List (List Char ⊕ V)
  power : List (List Char ⊕ V)
  saturation : V

def indexErrorMsg : List Char := ("IndexError: list index out of range").toList

def nodeValueErrorMsg : List Char :=
  ("AttributeError: NoneType object has no attribute nodeValue").toList

def xmlParseErrorMsg : List Char := ("ExpatError: XML document not well-formed").toList

def floatValueErrorMsg (t : List Char) : List Char :=
  ("ValueError: could not convert string to float: ").toList ++ t

/-- `getElementsByTagName(tag)[0].firstChild.nodeValue`: `IndexError`
when there is no such element, `AttributeError` when its first child is
missing. -/
def firstTagText (els : List (Option (List Char))) : Except (List Char) (List Char) :=
  match els with
  | [] => .error indexErrorMsg
  | none :: _ => .error nodeValueErrorMsg
  | some t :: _ => .ok t

/-- One step `xs[i] = float(xs[i])` of the conversion loop: `IndexError`
past the end, `ValueError` when the conversion fails. -/
def floatAt {V : Type} (pf : List Char → Option V) (l : List (List Char ⊕ V)) (i : Nat) :
    Except (List Char) (List (List Char ⊕ V)) :=
  match l.get? i with
  | none => .error indexErrorMsg
  | some (Sum.inl t) =>
    match pf t with
    | none => .error (floatValueErrorMsg t)
    | some v => .ok (l.set i (Sum.inr v))
  | some (Sum.inr _) => .ok l

/-- The body of `ReadASCCDL`'s `try` block, in source order: fetch and
split the four texts, convert indices `0, 1, 2` of slope/offset/power
interleaved by index, convert `saturation[0]`, build the LUT. -/
def readASCCDLBody {V : Type} (pf : List Char → Option V) (doc : Option CDLDoc) :
    Except (List Char) (DraftLUT V) := do
  match doc with
  | none => .error xmlParseErrorMsg
  | some d =>
    let slopeT ← firstTagText d.slopeEls
    let slope0 : List (List Char ⊕ V) := (pySplitWs slopeT []).map Sum.inl
    let offsetT ← firstTagText d.offsetEls
    let offset0 : List (List Char ⊕ V) := (pySplitWs offsetT []).map Sum.inl
    let powerT ← firstTagText d.powerEls
    let power0 : List (List Char ⊕ V) := (pySplitWs powerT []).map Sum.inl
    let saturationT ← firstTagText d.saturationEls
    let saturation0 := pySplitWs saturationT []
    let slope1 ← floatAt pf slope0 0
    let offset1 ← floatAt pf offset0 0
    let power1 ← floatAt pf power0 0
    let slope2 ← floatAt pf slope1 1
    let offset2 ← floatAt pf offset1 1
    let power2 ← floatAt pf power1 1
    let slope3 ← floatAt pf slope2 2
    let offset3 ← floatAt pf offset2 2
    let power3 ← floatAt pf power2 2
    let saturation ←
      match saturation0 with
      | [] => .error indexErrorMsg
      | t :: _ =>
        match pf t with
        | none => .error (floatValueErrorMsg t)
        | some v => Except.ok v
    .ok { slope := slope3, offset := offset3, power := power3, saturation := saturation }

/-- `ReadASCCDL(filename, raiseExceptionOnError)`: the `try`/`except`
wrapper.  `raiseExceptionOnError = true` is the source's default. -/
def ReadASCCDL {V : Type} (pf : List Char → Option V) (doc : Option CDLDoc)
    (raiseExceptionOnError : Bool) : Except (List Char) (Option (DraftLUT V)) :=
  match readASCCDLBody pf doc with
  | .error e => if raiseExceptionOnError then .error e else .ok none
  | .ok lut => .ok (some lut)

/-! ## DraftParamParser.FrameRangeToFrames (claims C3 and C9)

The source (`DraftParamParser.py`, lines 219-261) splits the input with
`re.split('\s+|,+', frameString)`, skips empty tokens, and parses each
token: `string.find(token, '-', 1)` looks for a dash from index 1 on (so
a leading minus sign is not a range separator); without a dash the token
is `int(...)`-parsed as a single frame; with a dash at `i`, the part
before is the start frame and the part after is matched against
`(-?\d+)(?:(x|step|by|every)(\d+))?` (anchored only at the start — a
trailing garbage suffix is ignored); without a step group the token
contributes `range(start, end+1)`, with one it contributes the `while`
loop's frames stepping by `by * dir` where `dir = -1` iff `start > end`.
The `except` clause prints and then re-raises, so a malformed token
aborts the whole call.  Finally `frames = list(set(frames));
frames.sort()` — the sorted duplicate-free enumeration of the collected
set, which is extensionally `insertionSort` of `dedup` (two sorted
duplicate-free lists of the same integers are equal).

A `while` loop with step `0` and a satisfiable entry condition never
terminates in Python; that case (e.g. token `"1-5x0"`) is modelled as an
`Except.error` tagged `nontermination`.  For a positive step the fuel
`((end - start) * dir).toNat + 1` is an exact bound on the iteration
count, so `stepLoop` equals the Python loop. -/

/-- State of the `re.split('\s+|,+', s)` scan: building a token, or just
inside a separator run of the recorded kind (`\s+` vs `,+`); a change of
kind ends one separator match and yields an empty token between the two
matches, exactly as `re.split` does. -/
inductive SplitState where
  | tok (acc : List Char)
  | sep (isComma : Bool)

def splitRe : List Char → SplitState → List (List Char)
  | [], .tok acc => [acc.reverse]
  | [], .sep _ => [[]]
  | c :: rest, .tok acc =>
    if isSpaceChar c then acc.reverse :: splitRe rest (.sep false)
    else if c = ',' then acc.reverse :: splitRe rest (.sep true)
    else splitRe rest (.tok (c :: acc))
  | c :: rest, .sep sc =>
    if isSpaceChar c then
      if sc then [] :: splitRe rest (.sep false) else splitRe rest (.sep false)
    else if c = ',' then
      if sc then splitRe rest (.sep true) else [] :: splitRe rest (.sep true)
    else splitRe rest (.tok [c])

def reSplitWsCommas (s : List Char) : List (List Char) :=
  splitRe s (.tok [])

/-- Index of the first `'-'` in a list. -/
def idxOfDash : List Char → Option Nat
  | [] => none
  | c :: r => if c = '-' then some 0 else (idxOfDash r).map (fun j => j + 1)

/-- `string.find(token, '-', 1)`: first dash at index `≥ 1` (`none` for
Python's `-1`). -/
def findDash1 : List Char → Option Nat
  | [] => none
  | _ :: r => (idxOfDash r).map (fun j => j + 1)

/-- The alternation `(x|step|by|every)` of the token regex: try each word
as a prefix (the words are mutually prefix-free, so order does not
matter) and return the remainder. -/
def stripSepWord (s : List Char) : Option (List Char) :=
  if ("x").toList.isPrefixOf s then some (s.drop 1)
  else if ("step").toList.isPrefixOf s then some (s.drop 4)
  else if ("by").toList.isPrefixOf s then some (s.drop 2)
  else if ("every").toList.isPrefixOf s then some (s.drop 5)
  else none

/-- The optional group `(?:(x|step|by|every)(\d+))?`: a separator word
followed by one or more digits; if either part fails the whole group is
skipped (regex backtracking), contributing `none`. -/
def matchStepGroup (s : List Char) : Option Nat :=
  match stripSepWord s with
  | none => none
  | some r =>
    let ds := r.takeWhile isDigitChar
    if ds = [] then none else some (digitsToNat ds)

/-- `re.match("(-?\d+)(?:(x|step|by|every)(\d+))?", s)`: group 1 is an
optional minus sign and a maximal nonempty digit run (the words of the
optional group start with non-digits, so maximal munch is exact); the
match is unanchored at the end, so any trailing remainder is ignored.
Returns `(int(group(1)), int(group(3))?)` or `none` when the regex does
not match. -/
def matchEndPart (s : List Char) : Option (Int × Option Nat) :=
  let neg : Bool := s.head? = some '-'
  let s1 := if neg then s.drop 1 else s
  let ds := s1.takeWhile isDigitChar
  if ds = [] then none
  else
    let rest := s1.dropWhile isDigitChar
    let endv : Int := if neg then -(digitsToNat ds : Int) else (digitsToNat ds : Int)
    some (endv, matchStepGroup rest)

/-- Python's `range(a, b + 1)` as a list of integers. -/
def pyRange (a b : Int) : List Int :=
  (List.range (b + 1 - a).toNat).map (fun k : Nat => a + (k : Int))

/-- The `while (frame * dir) <= (endFrame * dir)` loop collecting
`frame`, stepping by `inc = byFrame * dir`; structural fuel. -/
def stepLoop : Nat → Int → Int → Int → Int → List Int
  | 0, _, _, _, _ => []
  | fuel + 1, frame, endv, dir, inc =>
    if frame * dir ≤ endv * dir then frame :: stepLoop fuel (frame + inc) endv dir inc
    else []

/-- The frames contributed by one token of `FrameRangeToFrames` (the body
of the `for token in frameRangeTokens` loop; the `except` re-raises, so
failures are errors of the whole call). -/
def processToken (t : List Char) : Except (List Char) (List Int) :=
  if t.length > 0 then
    match findDash1 t with
    | none =>
      match pyInt t with
      | some n => .ok [n]
      | none => .error (("ValueError: invalid literal for int(): ").toList ++ t)
    | some i =>
      match pyInt (t.take i) with
      | none => .error (("ValueError: invalid literal for int(): ").toList ++ t.take i)
      | some startFrame =>
        match matchEndPart (t.drop (i + 1)) with
        | none => .error ("Second part of Token failed regex match").toList
        | some (endFrame, none) => .ok (pyRange startFrame endFrame)
        | some (endFrame, some byFrame) =>
          let dir : Int := if startFrame > endFrame then -1 else 1
          if byFrame = 0 ∧ startFrame * dir ≤ endFrame * dir then
            .error ("nontermination: step 0 while loop").toList
          else
            .ok (stepLoop (((endFrame - startFrame) * dir).toNat + 1)
              startFrame endFrame dir ((byFrame : Int) * dir))
  else .ok []

/-- The token loop: frames of all tokens in order, first failure aborts. -/
def collectFrames : List (List Char) → Except (List Char) (List Int)
  | [] => .ok []
  | t :: ts => do
    let fs ← processToken t
    let rest ← collectFrames ts
    .ok (fs ++ rest)

/-- `FrameRangeToFrames(frameString)`: split, per-token expansion, then
`list(set(frames)); frames.sort()`. -/
def FrameRangeToFrames (s : List Char) : Except (List Char) (List Int) := do
  let frames ← collectFrames (reSplitWsCommas s)
  .ok (List.insertionSort (fun x y => x ≤ y) frames.dedup)

/-- The four step-separator words of the token regex alternation
`(x|step|by|every)`. -/
def stepSeparators : List (List Char) :=
  [("x").toList, ("step").toList, ("by").toList, ("every").toList]

/-- Characters that are neither `\s+` nor `,+` separators. -/
def noSepChar (c : Char) : Prop := isSpaceChar c = false ∧ c ≠ ','

instance (c : Char) : Decidable (noSepChar c) := by
  unfold noSepChar; infer_instance


/-! ## The publish hook, `src/hooks/publish_file.py` (claims C1, C2, C7, C8)

The hook runs inside the host toolkit; everything the host supplies is
abstracted as total oracles:

* `VTemplate` models an `sgtk` template object — `validate`,
  `get_fields` (the extracted fields dict, modelled as an association
  list with integer values; only the `"version"` entry is ever
  inspected), `apply_fields`;
* `HookEnv` carries the `path_info`-hook utilities
  (`get_version_number`, `get_next_version_path`, `get_publish_name`,
  the `"extension"` component of `get_file_path_components`), the
  `context_from_path(path).entity` resolution, the conflicting-publish
  query (returning the list of matching publish ids), and
  `standalone_apply`, which stands for
  `publisher.sgtk.templates[key].apply_fields` applied to
  `context.as_template_fields(...)` extended with the explicit
  `extension`/`name`/`sna_engine`/`version` entries that
  `_get_publish_path` sets (lines 1070-1079); the template lookup is
  modelled as total, i.e. the configuration is assumed to define the
  referenced standalone templates;
* `Item` carries the properties the methods read: the mandatory `path`,
  `work_template`, the `publish_template`/`publish_type`/
  `publish_version` properties (`None` = absent; `"work_template" in
  item.properties` is modelled as `workTemplate.isSome`),
  `tex_variation`, and `item.context.entity`;
* `Settings` carries the three declared plugin settings.  The
  `Publish Version` setting's value is an `Option Int` because
  `accept` (line 328) stores `get_publish_version`'s result into it,
  and that result can be Python `None`; `_get_publish_path` (line 1077)
  then applies `int()` to it, which raises `TypeError` on `None` —
  modelled by `intOfSettingValue`.

The one attribute access that can raise inside `_get_publish_path` is
the unconditional `item.context.entity.get('type')` of line 1063 when
the context has no entity (an `AttributeError` on `None`). -/

/-- Template fields, a dict keyed by strings (only `"version"` is ever
read or written by the embedded methods). -/
def lookupField (fs : List (String × Int)) (k : String) : Option Int :=
  (fs.find? (fun p => p.1 = k)).map (fun p => p.2)

/-- Python dict update at an existing key: replace its value. -/
def setField (fs : List (String × Int)) (k : String) (v : Int) : List (String × Int) :=
  fs.map (fun p => if p.1 = k then (k, v) else p)

/-- An `sgtk` template object, as the hook uses it. -/
structure VTemplate where
  validate : String → Bool
  get_fields : String → List (String × Int)
  apply_fields : List (String × Int) → String

/-- A Shotgun entity (`{'type': ..., 'id': ...}`); `cmp`-equality of the
dicts is equality of these records. -/
structure Entity where
  etype : String
  eid : Int
deriving DecidableEq

/-- The item properties read by the embedded methods. -/
structure Item where
  path : String
  workTemplate : Option VTemplate
  publishTemplate : Option VTemplate
  publishVersionProp : Option Int
  publishTypeProp : Option String
  texVariation : Option String
  contextEntity : Option Entity

/-- The plugin's declared settings (`File Types`, `Export Name`,
`Publish Version`). -/
structure Settings where
  fileTypes : List (String × String × List String)
  exportName : String
  publishVersion : Option Int

/-- The host-supplied helpers, as total oracles. -/
structure HookEnv where
  get_version_number : String → Option Int
  get_next_version_path : String → Option String
  context_from_path_entity : String → Option Entity
  path_extension : String → Option String
  standalone_apply : String → Option String → String → String → Int → String
  get_publish_name : String → Bool → String
  get_conflicting_publishes : Option Entity → String → String → List Nat

/-- Python truthiness of an optional integer (`None` and `0` are
falsy). -/
def pyTruthyIntOpt : Option Int → Bool
  | some v => decide (v ≠ 0)
  | none => false

/-- Python truthiness of an optional string (`None` and `""` are
falsy). -/
def pyTruthyStrOpt : Option String → Bool
  | some s => decide (s ≠ "")
  | none => false

/-- Python's `str.lower()` (ASCII). -/
def pyLower (s : String) : String := String.map Char.toLower s

/-- Python's `str.lstrip(".")`. -/
def pyLstripDots (s : String) : String := String.mk (s.toList.dropWhile (fun c => c = '.'))

/-- Python's `str.capitalize()`. -/
def pyCapitalize (s : String) : String :=
  match s.toList with
  | [] => ""
  | c :: r => String.mk (c.toUpper :: r.map Char.toLower)

/-- Python's substring test `a in b`. -/
def pySubstr (a b : String) : Bool := decide (a.toList <:+: b.toList)

/-- The `for type_def in settings["File Types"].value` loop of
`get_publish_type` (lines 650-658): each iteration assigns
`publish_type = type_def[0]; publish_engine = type_def[1]` before
testing `extension in file_extensions`, so when no entry matches, the
engine variable is left holding the *last* entry's engine. -/
def file_type_scan (ext : String) :
    List (String × String × List String) → String → Option (String × String) × String
  | [], eng => (none, eng)
  | td :: rest, _ =>
    if ext ∈ td.2.2 then (some (td.1, td.2.1), td.2.1)
    else file_type_scan ext rest td.2.1

/-- `BasicFilePublishPlugin.get_publish_type` (lines 620-669): explicit
`publish_type` property (engine `'elements'`), else match the path's
extension against the `File Types` setting, else `"<Ext> File"` with the
loop's residual engine, else `"Texture Folder"`. -/
def get_publish_type (env : HookEnv) (settings : Settings) (item : Item) :
    String × String :=
  if pyTruthyStrOpt item.publishTypeProp then (item.publishTypeProp.getD "", "elements")
  else
    match env.path_extension item.path with
    | some ext0 =>
      if ext0 ≠ "" then
        let ext := pyLower (pyLstripDots ext0)
        match file_type_scan ext settings.fileTypes "elements" with
        | (some te, _) => te
        | (none, eng) =>
          if ext ≠ "" then (pyCapitalize ext ++ " File", eng)
          else ("Texture Folder", eng)
      else ("Texture Folder", "elements")
    | none => ("Texture Folder", "elements")

/-- `BasicFilePublishPlugin.get_publish_version` (lines 728-773):
explicit truthy `publish_version` property wins; else fields extracted
through a validating work template — nonempty fields (`if work_fields:`)
yield `work_fields.get("version")`, which is `None` when the key is
missing; else (no template, template not matching, or *empty* extracted
fields) the `path_info` hook, `1` when it detects nothing. -/
def get_publish_version (env : HookEnv) (item : Item) : Option Int :=
  if pyTruthyIntOpt item.publishVersionProp then item.publishVersionProp
  else
    let work_fields : Option (List (String × Int)) :=
      match item.workTemplate with
      | some wt => if wt.validate item.path then some (wt.get_fields item.path) else none
      | none => none
    match work_fields with
    | some fs =>
      if fs ≠ [] then lookupField fs "version"
      else some ((env.get_version_number item.path).getD 1)
    | none => some ((env.get_version_number item.path).getD 1)

/-- The dictionary returned by `accept`; `accepted` is required, the
other three keys are optional (`none` = not set). -/
structure AcceptDict where
  accepted : Bool
  enabled : Option Bool
  visible : Option Bool
  checked : Option Bool
deriving DecidableEq

/-- `BasicFilePublishPlugin.accept` (lines 298-343): store
`get_publish_version` into the `Publish Version` setting, store
`tex_variation` (when truthy) into `Export Name`, log, and return
`{"accepted": True}`.  Within the typed model the method is total; the
Python failure modes (missing `path` property, missing settings keys)
are outside the modelled input space. -/
def accept (env : HookEnv) (settings : Settings) (item : Item) :
    Settings × AcceptDict :=
  let publish_version := get_publish_version env item
  let s1 : Settings := { settings with publishVersion := publish_version }
  let s2 : Settings :=
    match item.texVariation with
    | some tv => if tv ≠ "" then { s1 with exportName := tv } else s1
    | none => s1
  (s2, { accepted := true, enabled := none, visible := none, checked := none })

/-- `BasicFilePublishPlugin._get_next_version_info` (lines 945-995).
`if not path:` is Python-truthy-false for `None` and `""` alike.  With a
validating work template whose fields are nonempty and contain
`"version"`, the version is bumped by one and re-applied; otherwise the
`path_info` hook supplies the next path and `current + 1` (or `None`
when no version is detected). -/
def get_next_version_info (env : HookEnv) (item : Item) (path : Option String) :
    Option String × Option Int :=
  if path = none ∨ path = some "" then (none, none)
  else
    let p := path.getD ""
    let fallback : Option String × Option Int :=
      (env.get_next_version_path p,
       match env.get_version_number p with
       | some cur => some (cur + 1)
       | none => none)
    match item.workTemplate with
    | some wt =>
      if wt.validate p then
        let fs := wt.get_fields p
        if fs ≠ [] ∧ (lookupField fs "version").isSome then
          match lookupField fs "version" with
          | some v =>
            (some (wt.apply_fields (setField fs "version" (v + 1))), some (v + 1))
          | none => fallback
        else fallback
      else fallback
    | none => fallback

/-- `int(settings.get('Publish Version').value)` of line 1077:
`TypeError` when the stored value is `None`. -/
def intOfSettingValue : Option Int → Except String Int
  | some v => .ok v
  | none => .error "TypeError: int() argument cannot be NoneType"

/-- `BasicFilePublishPlugin._get_publish_path` (lines 1049-1086): the
publish type selects the sequence/texturefolder/scene standalone
template; `item.context.entity.get('type')` is dereferenced
unconditionally (AttributeError when the context has no entity); if the
path's own entity equals the context entity the file stays in place,
otherwise the standalone template is applied to the context fields plus
`extension` (except for texture folders), `name`, `sna_engine` and
`int(Publish Version)`; finally the publish name is derived from the
resulting path. -/
def get_publish_path_r8s (env : HookEnv) (settings : Settings) (item : Item) :
    Except String (String × String) := do
  let path := item.path
  let path_entity := env.context_from_path_entity path
  let tp := get_publish_type env settings item
  let isSequence : String × Bool :=
    if pySubstr "images" tp.2 then ("sequence", true)
    else if pySubstr "Texture Folder" tp.1 then ("texturefolder", false)
    else ("scene", false)
  match item.contextEntity with
  | none => .error "AttributeError: NoneType object has no attribute get"
  | some e =>
    let entity_type := e.etype
    let publish_path ←
      if path_entity = some e then pure path
      else do
        let version ← intOfSettingValue settings.publishVersion
        let key := pyLower entity_type ++ "_standalone_" ++ isSequence.1 ++ "_location"
        let ext : Option String :=
          if pySubstr "Texture Folder" tp.1 then none else env.path_extension path
        pure (env.standalone_apply key ext settings.exportName tp.2 version)
    let publish_name := env.get_publish_name publish_path isSequence.2
    pure (publish_name, publish_path)

/-- `BasicFilePublishPlugin.validate` (lines 345-433): resolve the
publish name/path, query the conflicting publishes with a status, raise
when the context has no entity, raise when conflicts exist and a
`work_template` property is present or a publish template is set, only
warn when conflicts exist without templates, and return `True`
otherwise. -/
def validate (env : HookEnv) (settings : Settings) (item : Item) :
    Except String Bool := do
  let publish_info ← get_publish_path_r8s env settings item
  let publishes :=
    env.get_conflicting_publishes item.contextEntity publish_info.2 publish_info.1
  if item.contextEntity = none then
    .error "You Need to Link Publish element to Shot or Asset"
  else
    if publishes ≠ [] then
      if item.workTemplate.isSome || item.publishTemplate.isSome then
        .error "Can not validate file path. There is already a publish in Shotgun that matches this path. Please uncheck this plugin or save the file to a different path."
      else
        pure true
    else
      pure true

/-- The conflicting-publish list `validate` queries, when the publish
path resolution succeeds (`[]` when it raises first). -/
def conflictsOf (env : HookEnv) (settings : Settings) (item : Item) : List Nat :=
  match get_publish_path_r8s env settings item with
  | .ok info => env.get_conflicting_publishes item.contextEntity info.2 info.1
  | .error _ => []

/-! ## The application module, `src/app.py` (claim C4) -/

/-- The host engine, reduced to its registered menu commands (caption
list, in registration order). -/
structure Engine where
  commands : List String

/-- `self.engine.register_command(menu_caption, cb)`. -/
def register_command (e : Engine) (caption : String) : Engine :=
  { commands := e.commands ++ [caption] }

/-- The imported `tk_multi_publish2` module: calling its
`PublishManager` class constructs an instance. -/
structure TkMultiPublish2Module (M : Type) where
  PublishManager : Unit → M

/-- The `R8SPublish` application state: the engine handle and the
`_manager_class` reference stored by `init_app` (`none` before
`init_app` runs). -/
structure R8SPublishApp (M : Type) where
  engine : Engine
  manager_class : Option (Unit → M)

/-- `R8SPublish.init_app` (`app.py` lines 29-52): import the module,
store `_manager_class`, and register the single menu command with
caption `"R8S Publish"`. -/
def init_app {M : Type} (tk : TkMultiPublish2Module M) (app : R8SPublishApp M) :
    R8SPublishApp M :=
  { engine := register_command app.engine "R8S Publish",
    manager_class := some tk.PublishManager }

/-- `R8SPublish.create_publish_manager` (lines 105-113): call the stored
class, `self._manager_class()`. -/
def create_publish_manager {M : Type} (app : R8SPublishApp M) : Option M :=
  app.manager_class.map (fun k => k ())


/-! ## Concrete host environments, templates and items used by
counterexamples and witnesses -/

/-- A host environment whose oracles report nothing. -/
def trivialHookEnv : HookEnv :=
  { get_version_number := fun _ => none,
    get_next_version_path := fun _ => none,
    context_from_path_entity := fun _ => none,
    path_extension := fun _ => none,
    standalone_apply := fun _ _ _ _ _ => "",
    get_publish_name := fun _ _ => "",
    get_conflicting_publishes := fun _ _ _ => [] }

/-- A host environment whose `path_info` hook detects version `1` in
every path and offers `"x_v2"` as the next path. -/
def versionOneHookEnv : HookEnv :=
  { trivialHookEnv with
    get_version_number := fun _ => some 1,
    get_next_version_path := fun _ => some "x_v2" }

/-- A work template that validates every path and extracts an empty
fields dict. -/
def emptyFieldsTemplate : VTemplate :=
  { validate := fun _ => true, get_fields := fun _ => [], apply_fields := fun _ => "p" }

/-- A work template whose extracted fields are nonempty but contain no
`"version"` key. -/
def noVersionTemplate : VTemplate :=
  { validate := fun _ => true,
    get_fields := fun _ => [("height", 2)],
    apply_fields := fun _ => "p" }

/-- A work template extracting `{"version": 3}`. -/
def versionThreeTemplate : VTemplate :=
  { validate := fun _ => true,
    get_fields := fun _ => [("version", 3)],
    apply_fields := fun _ => "next" }

/-- A concrete Shot entity. -/
def shotEntity : Entity := { etype := "Shot", eid := 1 }

/-- An item with only the mandatory `path` property. -/
def plainItem : Item :=
  { path := "w", workTemplate := none, publishTemplate := none,
    publishVersionProp := none, publishTypeProp := none,
    texVariation := none, contextEntity := none }

/-- The plugin settings at their defaults. -/
def defaultSettings : Settings :=
  { fileTypes := [], exportName := "standalone", publishVersion := some 1 }

/-! ## Theorems -/

/-! ### Claim C6 -/

theorem parseParamLines_error (lines : List (List Char)) :
    ∀ p lb, lines.find? badLine = some lb →
      parseParamLines lines p = .error (badArgMsg lb) := by
  induction lines with
  | nil => intro p lb h; simp at h
  | cons l ls ih =>
    intro p lb h
    rw [List.find?_cons] at h
    by_cases ha : activeLine l = true
    · have ha' : l ≠ [] ∧ l.head? ≠ some '#' := by simpa [activeLine] using ha
      rcases hs : splitEqOnce l with _ | kv
      · have hb : badLine l = true := by simp [badLine, ha, hs]
        rw [hb] at h
        simp only [Option.some.injEq] at h
        subst h
        simp [parseParamLines, ha', hs]
      · have hb : badLine l = false := by simp [badLine, ha, hs]
        rw [hb] at h
        have hstep : parseParamLines (l :: ls) p =
            parseParamLines ls (fun q => if q = kv.1 then some kv.2 else p q) := by
          simp [parseParamLines, ha', hs]
        rw [hstep]
        exact ih _ lb h
    · have hb : badLine l = false := by simp [badLine, ha]
      rw [hb] at h
      have ha' : ¬(l ≠ [] ∧ l.head? ≠ some '#') := by simpa [activeLine] using ha
      have hstep : parseParamLines (l :: ls) p = parseParamLines ls p := by
        simp [parseParamLines, ha']
      rw [hstep]
      exact ih _ lb h

theorem parseParamLines_ok (lines : List (List Char)) :
    ∀ p, lines.find? badLine = none →
      ∃ f, parseParamLines lines p = .ok f ∧
        ∀ k, f k = (lastValueFor lines k).or (p k) := by
  induction lines with
  | nil =>
    intro p _
    exact ⟨p, rfl, fun k => by simp [lastValueFor]⟩
  | cons l ls ih =>
    intro p h
    rw [List.find?_cons] at h
    by_cases hb : badLine l = true
    · rw [hb] at h; simp at h
    · rw [eq_false_of_ne_true hb] at h
      by_cases ha : activeLine l = true
      · have ha' : l ≠ [] ∧ l.head? ≠ some '#' := by simpa [activeLine] using ha
        rcases hs : splitEqOnce l with _ | kv
        · exact absurd (by simp [badLine, ha, hs]) hb
        · obtain ⟨f, hf, hfk⟩ := ih (fun q => if q = kv.1 then some kv.2 else p q) h
          refine ⟨f, by simp [parseParamLines, ha', hs, hf], ?_⟩
          intro k
          rw [hfk k]
          have hkv : lineKV l = some kv := by simp [lineKV, activeLine, ha', hs]
          simp only [lastValueFor, hkv, Option.bind_some]
          rcases lastValueFor ls k with _ | v
          · by_cases hk : k = kv.1
            · subst hk; simp
            · have hk' : ¬(kv.1 = k) := fun hh => hk hh.symm
              simp [hk, hk']
          · simp
      · have ha' : ¬(l ≠ [] ∧ l.head? ≠ some '#') := by simpa [activeLine] using ha
        obtain ⟨f, hf, hfk⟩ := ih p h
        refine ⟨f, by simp [parseParamLines, ha', hf], ?_⟩
        intro k
        rw [hfk k]
        have hkv : lineKV l = none := by simp [lineKV, activeLine, ha']
        simp only [lastValueFor, hkv, Option.bind_none]
        rcases lastValueFor ls k with _ | v <;> simp

/-- Claim C6: `ParseParamFile_TypeAgnostic` skips lines that are empty or
start with `'#'`; every other line must contain `'='`, otherwise an error
naming the bad line is raised (the first such line); otherwise the text
before the first `'='` is the key and the whole remainder after that
first `'='` is the value, a later line for the same key overriding an
earlier one. -/
theorem ParseParamFile_TypeAgnostic_spec (lines : List (List Char)) :
    (∀ lb, lines.find? badLine = some lb →
      ParseParamFile_TypeAgnostic lines = .error (badArgMsg lb)) ∧
    (lines.find? badLine = none →
      ∃ f, ParseParamFile_TypeAgnostic lines = .ok f ∧
        ∀ k, f k = lastValueFor lines k) := by
  constructor
  · intro lb h
    exact parseParamLines_error lines _ lb h
  · intro h
    obtain ⟨f, hf, hfk⟩ := parseParamLines_ok lines _ h
    refine ⟨f, hf, fun k => ?_⟩
    rw [hfk k]
    rcases lastValueFor lines k with _ | v <;> simp

/-- Witness for C6 at a concrete parameter file: a comment line, a blank
line, a value containing a second `'='`, and an overriding later line. -/
theorem ParseParamFile_TypeAgnostic_spec_witness :
    (∃ f, ParseParamFile_TypeAgnostic
        ["a=1".toList, "#skip".toList, "".toList, "a=2=3".toList, "b=x".toList] = .ok f ∧
      ∀ k, f k = lastValueFor
        ["a=1".toList, "#skip".toList, "".toList, "a=2=3".toList, "b=x".toList] k) ∧
    lastValueFor ["a=1".toList, "#skip".toList, "".toList, "a=2=3".toList, "b=x".toList]
        "a".toList = some "2=3".toList :=
  ⟨(ParseParamFile_TypeAgnostic_spec
      ["a=1".toList, "#skip".toList, "".toList, "a=2=3".toList, "b=x".toList]).2 (by decide),
   by decide⟩

/-- Claim C10 (code bug): on the path `"100%#.txt"` — exactly one run of
one `'#'` — the claim's intended result is `"100%7.txt"`, and the
source's own comment on line 208 (`make sure any existing '%'s are
escaped`) shows that intent; but because `s.replace("%", "%%")` discards
its result, the raw `'%'` of the path merges with the inserted `%1.1d`
conversion into `%%` followed by plain text, so the `% n` application
raises `TypeError: not all arguments converted during string
formatting` instead of replacing the hash run. -/
theorem ReplaceFilenameHashesWithNumber_percent_bug :
    splitHashRuns ("100%#.txt".toList) = ["100%".toList, ".txt".toList] ∧
    ReplaceFilenameHashesWithNumber ("100%#.txt".toList) 7 =
      .error ("not all arguments converted during string formatting").toList ∧
    ReplaceFilenameHashesWithNumber ("100%#.txt".toList) 7 ≠
      .ok ("100%7.txt".toList) := by
  refine ⟨by decide, rfl, ?_⟩
  intro h
  rw [show ReplaceFilenameHashesWithNumber ("100%#.txt".toList) 7 =
      (.error ("not all arguments converted during string formatting").toList :
        Except (List Char) (List Char)) from rfl] at h
  exact Except.noConfusion h

/-- Claim C5: whenever reading or parsing the CDL file fails (any
exception in the `try` body), `raiseExceptionOnError = True` (the
default) propagates the exception and `raiseExceptionOnError = False`
returns `None`; on success the function returns the LUT built from the
file's first `Slope`, `Offset` and `Power` elements (first three
components each, converted to float) and first `Saturation` element
(first component converted to float). -/
theorem ReadASCCDL_spec {V : Type} (pf : List Char → Option V) :
    (∀ doc e, readASCCDLBody pf doc = .error e →
      ReadASCCDL pf doc true = .error e ∧ ReadASCCDL pf doc false = .ok none) ∧
    (∀ doc lut, readASCCDLBody pf doc = .ok lut →
      ∀ flag, ReadASCCDL pf doc flag = .ok (some lut)) ∧
    (∀ (d : CDLDoc) (sT oT pT tT : List Char)
       (sRest oRest pRest tRest : List (Option (List Char)))
       (s0 s1 s2 o0 o1 o2 p0 p1 p2 t0 : List Char)
       (sMore oMore pMore tMore : List (List Char))
       (a0 a1 a2 b0 b1 b2 c0 c1 c2 sat : V),
      d.slopeEls = some sT :: sRest →
      d.offsetEls = some oT :: oRest →
      d.powerEls = some pT :: pRest →
      d.saturationEls = some tT :: tRest →
      pySplitWs sT [] = s0 :: s1 :: s2 :: sMore →
      pySplitWs oT [] = o0 :: o1 :: o2 :: oMore →
      pySplitWs pT [] = p0 :: p1 :: p2 :: pMore →
      pySplitWs tT [] = t0 :: tMore →
      pf s0 = some a0 → pf s1 = some a1 → pf s2 = some a2 →
      pf o0 = some b0 → pf o1 = some b1 → pf o2 = some b2 →
      pf p0 = some c0 → pf p1 = some c1 → pf p2 = some c2 →
      pf t0 = some sat →
      ∀ flag, ReadASCCDL pf (some d) flag = .ok (some
        { slope := Sum.inr a0 :: Sum.inr a1 :: Sum.inr a2 :: sMore.map Sum.inl,
          offset := Sum.inr b0 :: Sum.inr b1 :: Sum.inr b2 :: oMore.map Sum.inl,
          power := Sum.inr c0 :: Sum.inr c1 :: Sum.inr c2 :: pMore.map Sum.inl,
          saturation := sat })) := by
  refine ⟨?_, ?_, ?_⟩
  · intro doc e h
    constructor <;> simp [ReadASCCDL, h]
  · intro doc lut h flag
    simp [ReadASCCDL, h]
  · intro d sT oT pT tT sRest oRest pRest tRest s0 s1 s2 o0 o1 o2 p0 p1 p2 t0
      sMore oMore pMore tMore a0 a1 a2 b0 b1 b2 c0 c1 c2 sat
      h1 h2 h3 h4 h5 h6 h7 h8 h9 h10 h11 h12 h13 h14 h15 h16 h17 h18 flag
    have hbody : readASCCDLBody pf (some d) = .ok
        { slope := Sum.inr a0 :: Sum.inr a1 :: Sum.inr a2 :: sMore.map Sum.inl,
          offset := Sum.inr b0 :: Sum.inr b1 :: Sum.inr b2 :: oMore.map Sum.inl,
          power := Sum.inr c0 :: Sum.inr c1 :: Sum.inr c2 :: pMore.map Sum.inl,
          saturation := sat } := by
      simp [readASCCDLBody, Bind.bind, Except.bind, h1, h2, h3, h4, h5, h6, h7, h8,
        firstTagText, floatAt, h9, h10, h11, h12, h13, h14, h15, h16, h17, h18]
    simp [ReadASCCDL, hbody]

/-- Witness for C5's success clause at a concrete document (integer-valued
conversion oracle). -/
theorem ReadASCCDL_spec_witness :
    ReadASCCDL pyInt (some
        { slopeEls := [some ("1 2 3").toList],
          offsetEls := [some ("4 5 6").toList],
          powerEls := [some ("7 8 9").toList],
          saturationEls := [some ("2").toList] }) true =
      .ok (some
        { slope := Sum.inr 1 :: Sum.inr 2 :: Sum.inr 3 :: List.map Sum.inl [],
          offset := Sum.inr 4 :: Sum.inr 5 :: Sum.inr 6 :: List.map Sum.inl [],
          power := Sum.inr 7 :: Sum.inr 8 :: Sum.inr 9 :: List.map Sum.inl [],
          saturation := (2 : Int) }) := by
  apply (ReadASCCDL_spec pyInt).2.2 <;> rfl

/-! ### Claims C3 and C9: lemmas about the FrameRangeToFrames embedding -/

theorem digitsToNat_append_digit (l : List Char) (c : Char) :
    digitsToNat (l ++ [c]) = 10 * digitsToNat l + charVal c := by
  simp [digitsToNat, List.foldl_append]

theorem charVal_digitChar {d : Nat} (h : d < 10) : charVal (digitChar d) = d := by
  interval_cases d <;> rfl

theorem isDigitChar_digitChar {d : Nat} (h : d < 10) : isDigitChar (digitChar d) = true := by
  interval_cases d <;> rfl

theorem natDigitsAux_all_digits :
    ∀ f n c, c ∈ natDigitsAux f n → isDigitChar c = true := by
  intro f
  induction f with
  | zero => intro n c h; simp [natDigitsAux] at h
  | succ f ih =>
    intro n c h
    rw [natDigitsAux] at h
    by_cases hn : n = 0
    · simp [hn] at h
    · rw [if_neg hn] at h
      rcases List.mem_append.mp h with h1 | h2
      · exact ih _ _ h1
      · simp at h2
        subst h2
        exact isDigitChar_digitChar (Nat.mod_lt _ (by norm_num))

theorem natDigitsAux_val :
    ∀ f n, n ≤ f → digitsToNat (natDigitsAux f n) = n := by
  intro f
  induction f with
  | zero => intro n h; interval_cases n; rfl
  | succ f ih =>
    intro n h
    rw [natDigitsAux]
    by_cases hn : n = 0
    · simp [hn, digitsToNat]
    · rw [if_neg hn]
      rw [digitsToNat_append_digit]
      have hdiv : n / 10 ≤ f := by
        have : n / 10 < n := Nat.div_lt_self (Nat.pos_of_ne_zero hn) (by norm_num)
        omega
      rw [ih _ hdiv, charVal_digitChar (Nat.mod_lt _ (by norm_num))]
      omega

theorem natToStr_val (n : Nat) : digitsToNat (natToStr n) = n := by
  by_cases hn : n = 0
  · subst hn; decide
  · rw [natToStr, if_neg hn]
    exact natDigitsAux_val n n le_rfl

theorem natToStr_all_digits (n : Nat) : ∀ c ∈ natToStr n, isDigitChar c = true := by
  by_cases hn : n = 0
  · subst hn; decide
  · rw [natToStr, if_neg hn]
    exact natDigitsAux_all_digits n n

theorem natToStr_ne_nil (n : Nat) : natToStr n ≠ [] := by
  by_cases hn : n = 0
  · subst hn; decide
  · rw [natToStr, if_neg hn]
    obtain ⟨m, rfl⟩ := Nat.exists_eq_succ_of_ne_zero hn
    rw [natDigitsAux]
    rw [if_neg hn]
    simp

theorem digit_ne_of_not_digit {c x : Char} (h : isDigitChar c = true)
    (hx : isDigitChar x = false) : c ≠ x := by
  intro he; subst he; rw [h] at hx; cases hx

theorem isSpaceChar_eq_false_of_digit {c : Char} (h : isDigitChar c = true) :
    isSpaceChar c = false := by
  by_cases hs : isSpaceChar c = true
  · exfalso
    have hd : ((((c = ' ' ∨ c = '\t') ∨ c = '\n') ∨ c = '\x0d') ∨ c = '\x0b') ∨ c = '\x0c' := by
      simpa [isSpaceChar] using hs
    rcases hd with ((((h1 | h1) | h1) | h1) | h1) | h1 <;> (subst h1; revert h; decide)
  · exact eq_false_of_ne_true hs

theorem takeWhile_all {p : Char → Bool} :
    ∀ {l : List Char}, (∀ c ∈ l, p c = true) → l.takeWhile p = l := by
  intro l
  induction l with
  | nil => intro _; rfl
  | cons c r ih =>
    intro h
    simp only [List.takeWhile_cons, h c (by simp), if_true]
    rw [ih (fun x hx => h x (by simp [hx]))]

theorem dropWhile_all {p : Char → Bool} :
    ∀ {l : List Char}, (∀ c ∈ l, p c = true) → l.dropWhile p = [] := by
  intro l
  induction l with
  | nil => intro _; rfl
  | cons c r ih =>
    intro h
    simp only [List.dropWhile_cons, h c (by simp), if_true]
    exact ih (fun x hx => h x (by simp [hx]))

theorem takeWhile_append_of_all {p : Char → Bool} {l r : List Char}
    (hl : ∀ c ∈ l, p c = true) :
    (l ++ r).takeWhile p = l ++ r.takeWhile p := by
  induction l with
  | nil => simp
  | cons c t ih =>
    rw [List.cons_append, List.takeWhile_cons]
    simp only [hl c (by simp), if_true]
    rw [ih (fun x hx => hl x (by simp [hx]))]
    simp

theorem dropWhile_append_of_all {p : Char → Bool} {l r : List Char}
    (hl : ∀ c ∈ l, p c = true) :
    (l ++ r).dropWhile p = r.dropWhile p := by
  induction l with
  | nil => simp
  | cons c t ih =>
    rw [List.cons_append, List.dropWhile_cons]
    simp only [hl c (by simp), if_true]
    exact ih (fun x hx => hl x (by simp [hx]))

theorem dropWhile_of_head_false {p : Char → Bool} {c : Char} {r : List Char}
    (h : p c = false) : (c :: r).dropWhile p = c :: r := by
  simp [List.dropWhile_cons, h]

theorem takeWhile_of_head_false {p : Char → Bool} {c : Char} {r : List Char}
    (h : p c = false) : (c :: r).takeWhile p = [] := by
  simp [List.takeWhile_cons, h]

theorem stripWs_of_no_space {l : List Char}
    (h : ∀ c ∈ l, isSpaceChar c = false) : stripWs l = l := by
  unfold stripWs
  have h1 : l.dropWhile isSpaceChar = l := by
    cases l with
    | nil => rfl
    | cons c r => exact dropWhile_of_head_false (h c (by simp))
  rw [h1]
  have h2 : l.reverse.dropWhile isSpaceChar = l.reverse := by
    cases hr : l.reverse with
    | nil => rfl
    | cons c r =>
      refine dropWhile_of_head_false (h c ?_)
      have : c ∈ l.reverse := by rw [hr]; simp
      simpa using this
  rw [h2, List.reverse_reverse]

theorem natToStr_no_space (n : Nat) : ∀ c ∈ natToStr n, isSpaceChar c = false :=
  fun c hc => isSpaceChar_eq_false_of_digit (natToStr_all_digits n c hc)

theorem intToStr_no_space (z : Int) : ∀ c ∈ intToStr z, isSpaceChar c = false := by
  intro c hc
  unfold intToStr at hc
  by_cases hz : z < 0
  · rw [if_pos hz] at hc
    rcases List.mem_cons.mp hc with h | h
    · subst h; decide
    · exact natToStr_no_space _ c h
  · rw [if_neg hz] at hc
    exact natToStr_no_space _ c hc

theorem pyInt_natToStr (n : Nat) : pyInt (natToStr n) = some (n : Int) := by
  unfold pyInt
  rw [stripWs_of_no_space (natToStr_no_space n)]
  obtain ⟨c, rest, hcr⟩ := List.exists_cons_of_ne_nil (natToStr_ne_nil n)
  have hcd : isDigitChar c = true := natToStr_all_digits n c (by rw [hcr]; simp)
  have hne1 : ¬(c = '-') := digit_ne_of_not_digit hcd (by decide)
  have hne2 : ¬(c = '+') := digit_ne_of_not_digit hcd (by decide)
  rw [hcr, List.head?_cons]
  rw [if_neg (by simp [hne1]), if_neg (by simp [hne2])]
  have hall : (c :: rest).all isDigitChar = true := by
    rw [← hcr]
    simp only [List.all_eq_true]
    exact natToStr_all_digits n
  rw [digitsVal, if_pos ⟨by simp, hall⟩]
  rw [← hcr, natToStr_val]
  rfl

theorem pyInt_intToStr (z : Int) : pyInt (intToStr z) = some z := by
  by_cases hz : z < 0
  · unfold pyInt
    rw [stripWs_of_no_space (intToStr_no_space z)]
    rw [intToStr, if_pos hz]
    rw [List.head?_cons, if_pos rfl]
    have hall : (natToStr z.natAbs).all isDigitChar = true := by
      simp only [List.all_eq_true]
      exact natToStr_all_digits _
    have hdrop : List.drop 1 ('-' :: natToStr z.natAbs) = natToStr z.natAbs := rfl
    rw [hdrop, digitsVal, if_pos ⟨natToStr_ne_nil _, hall⟩]
    rw [natToStr_val]
    simp only [Option.map_some', Option.some.injEq]
    omega
  · rw [intToStr, if_neg hz, pyInt_natToStr]
    congr 1
    omega

theorem splitRe_no_sep :
    ∀ (l : List Char) (acc : List Char), (∀ c ∈ l, noSepChar c) →
      splitRe l (.tok acc) = [acc.reverse ++ l] := by
  intro l
  induction l with
  | nil => intro acc _; simp [splitRe]
  | cons c r ih =>
    intro acc h
    obtain ⟨hs, hc⟩ := h c (by simp)
    rw [splitRe, if_neg (by simp [hs]), if_neg hc]
    rw [ih (c :: acc) (fun x hx => h x (by simp [hx]))]
    simp

theorem digit_noSep {c : Char} (h : isDigitChar c = true) : noSepChar c :=
  ⟨isSpaceChar_eq_false_of_digit h, digit_ne_of_not_digit h (by decide)⟩

theorem intToStr_noSep (z : Int) : ∀ c ∈ intToStr z, noSepChar c := by
  intro c hc
  unfold intToStr at hc
  by_cases hz : z < 0
  · rw [if_pos hz] at hc
    rcases List.mem_cons.mp hc with h | h
    · subst h; exact ⟨by decide, by decide⟩
    · exact digit_noSep (natToStr_all_digits _ c h)
  · rw [if_neg hz] at hc
    exact digit_noSep (natToStr_all_digits _ c hc)

theorem idxOfDash_append {xs : List Char} (ys : List Char)
    (h : ∀ c ∈ xs, c ≠ '-') : idxOfDash (xs ++ '-' :: ys) = some xs.length := by
  induction xs with
  | nil => simp [idxOfDash]
  | cons c r ih =>
    rw [List.cons_append, idxOfDash, if_neg (h c (by simp))]
    rw [ih (fun x hx => h x (by simp [hx]))]
    simp

theorem digit_ne_dash {c : Char} (h : isDigitChar c = true) : c ≠ '-' :=
  digit_ne_of_not_digit h (by decide)

theorem findDash1_intToStr (a : Int) (r : List Char) :
    findDash1 (intToStr a ++ '-' :: r) = some (intToStr a).length := by
  by_cases hz : a < 0
  · rw [intToStr, if_pos hz]
    rw [List.cons_append, findDash1]
    rw [idxOfDash_append r (fun c hc => digit_ne_dash (natToStr_all_digits _ c hc))]
    simp
  · rw [intToStr, if_neg hz]
    obtain ⟨c, rest, hcr⟩ := List.exists_cons_of_ne_nil (natToStr_ne_nil a.toNat)
    rw [hcr, List.cons_append, findDash1]
    rw [idxOfDash_append r (fun x hx => digit_ne_dash
      (natToStr_all_digits a.toNat x (by rw [hcr]; simp [hx])))]
    simp

theorem natToStr_takeWhile (m : Nat) :
    (natToStr m).takeWhile isDigitChar = natToStr m :=
  takeWhile_all (natToStr_all_digits m)

theorem matchEndPart_pos (m : Nat) (rest : List Char)
    (hhead : rest.takeWhile isDigitChar = [])
    (hdrop : rest.dropWhile isDigitChar = rest) :
    matchEndPart (natToStr m ++ rest) = some ((m : Int), matchStepGroup rest) := by
  obtain ⟨c, t, hcr⟩ := List.exists_cons_of_ne_nil (natToStr_ne_nil m)
  have hcd : isDigitChar c = true := natToStr_all_digits m c (by rw [hcr]; simp)
  have hne : ¬(c = '-') := digit_ne_dash hcd
  have hh : (natToStr m ++ rest).head? = some c := by rw [hcr]; simp
  have hneg : ((natToStr m ++ rest).head? = some '-' : Bool) = false := by
    simp [hh, hne]
  have htake : (natToStr m ++ rest).takeWhile isDigitChar = natToStr m := by
    rw [takeWhile_append_of_all (natToStr_all_digits m), hhead, List.append_nil]
  have hdrop2 : (natToStr m ++ rest).dropWhile isDigitChar = rest := by
    rw [dropWhile_append_of_all (natToStr_all_digits m), hdrop]
  simp only [matchEndPart, hneg, if_false, htake, hdrop2, Bool.false_eq_true,
    ite_false, natToStr_val]
  rw [if_neg (natToStr_ne_nil m)]

theorem matchEndPart_neg (m : Nat) (rest : List Char)
    (hhead : rest.takeWhile isDigitChar = [])
    (hdrop : rest.dropWhile isDigitChar = rest) :
    matchEndPart ('-' :: (natToStr m ++ rest)) =
      some (-(m : Int), matchStepGroup rest) := by
  have hneg : (('-' :: (natToStr m ++ rest)).head? = some '-' : Bool) = true := by simp
  have htake : (natToStr m ++ rest).takeWhile isDigitChar = natToStr m := by
    rw [takeWhile_append_of_all (natToStr_all_digits m), hhead, List.append_nil]
  have hdrop2 : (natToStr m ++ rest).dropWhile isDigitChar = rest := by
    rw [dropWhile_append_of_all (natToStr_all_digits m), hdrop]
  simp only [matchEndPart, hneg, if_true, List.drop_succ_cons, List.drop_zero,
    htake, hdrop2]
  rw [if_neg (natToStr_ne_nil m)]
  rw [natToStr_val]

theorem matchEndPart_intToStr (b : Int) (rest : List Char)
    (hhead : rest.takeWhile isDigitChar = [])
    (hdrop : rest.dropWhile isDigitChar = rest) :
    matchEndPart (intToStr b ++ rest) = some (b, matchStepGroup rest) := by
  by_cases hz : b < 0
  · rw [intToStr, if_pos hz, List.cons_append,
      matchEndPart_neg b.natAbs rest hhead hdrop]
    have hb : -((b.natAbs : Nat) : Int) = b := by omega
    rw [hb]
  · rw [intToStr, if_neg hz, matchEndPart_pos b.toNat rest hhead hdrop]
    have hb : ((b.toNat : Nat) : Int) = b := by omega
    rw [hb]

theorem stripSepWord_of_sep (w : List Char) (hw : w ∈ stepSeparators) (ns : List Char) :
    stripSepWord (w ++ ns) = some ns := by
  simp only [stepSeparators, List.mem_cons, List.not_mem_nil, or_false] at hw
  rcases hw with h | h | h | h <;>
    (subst h; simp [stripSepWord, List.isPrefixOf])

theorem sep_head_not_digit (w : List Char) (hw : w ∈ stepSeparators) (ns : List Char) :
    (w ++ ns).takeWhile isDigitChar = [] ∧ (w ++ ns).dropWhile isDigitChar = w ++ ns := by
  simp only [stepSeparators, List.mem_cons, List.not_mem_nil, or_false] at hw
  rcases hw with h | h | h | h <;>
    (subst h;
     exact ⟨takeWhile_of_head_false (by decide), dropWhile_of_head_false (by decide)⟩)

theorem matchStepGroup_word (w : List Char) (hw : w ∈ stepSeparators) (s : Nat) :
    matchStepGroup (w ++ natToStr s) = some s := by
  rw [matchStepGroup.eq_def, stripSepWord_of_sep w hw]
  simp only [natToStr_takeWhile]
  rw [if_neg (natToStr_ne_nil s), natToStr_val]

theorem mul_dir_collect {dir byN frame : Int} (hdir : dir = 1 ∨ dir = -1) (k : Int) :
    (frame + k * (byN * dir)) * dir = frame * dir + k * byN := by
  rcases hdir with h | h <;> subst h <;> ring

theorem stepLoop_mem (byN : Int) (hby : 1 ≤ byN) (dir : Int)
    (hdir : dir = 1 ∨ dir = -1) :
    ∀ (fuel : Nat) (frame endv : Int),
      ((endv * dir - frame * dir).toNat < fuel ∨ endv * dir < frame * dir) →
      ∀ x : Int, x ∈ stepLoop fuel frame endv dir (byN * dir) ↔
        ∃ k : Nat, x = frame + (k : Int) * (byN * dir) ∧ x * dir ≤ endv * dir := by
  intro fuel
  induction fuel with
  | zero =>
    intro frame endv hf x
    have he : endv * dir < frame * dir := by
      rcases hf with hf | hf
      · omega
      · exact hf
    rw [stepLoop]
    simp only [List.not_mem_nil, false_iff]
    rintro ⟨k, hk1, hk2⟩
    have hx : x * dir = frame * dir + (k : Int) * byN := by
      rw [hk1]; exact mul_dir_collect hdir k
    have hkb : 0 ≤ (k : Int) * byN := mul_nonneg (Int.natCast_nonneg k) (by omega)
    have : endv * dir < x * dir := by omega
    omega
  | succ fuel ih =>
    intro frame endv hf x
    rw [stepLoop]
    by_cases hcond : frame * dir ≤ endv * dir
    · rw [if_pos hcond]
      have hstep : (frame + byN * dir) * dir = frame * dir + byN := by
        have := @mul_dir_collect dir byN frame hdir 1
        simpa using this
      have hf' : (endv * dir - (frame + byN * dir) * dir).toNat < fuel ∨
          endv * dir < (frame + byN * dir) * dir := by
        rw [hstep]
        rcases hf with hf | hf
        · omega
        · omega
      constructor
      · intro hx
        rcases List.mem_cons.mp hx with h | h
        · subst h
          exact ⟨0, by simp, hcond⟩
        · obtain ⟨k, hk1, hk2⟩ := (ih (frame + byN * dir) endv hf' x).mp h
          refine ⟨k + 1, ?_, hk2⟩
          rw [hk1]
          push_cast
          ring
      · rintro ⟨k, hk1, hk2⟩
        cases k with
        | zero =>
          simp only [Nat.cast_zero, zero_mul, add_zero] at hk1
          subst hk1
          exact List.mem_cons_self _ _
        | succ k' =>
          refine List.mem_cons_of_mem _ ((ih (frame + byN * dir) endv hf' x).mpr ?_)
          refine ⟨k', ?_, hk2⟩
          rw [hk1]
          push_cast
          ring
    · rw [if_neg hcond]
      simp only [List.not_mem_nil, false_iff]
      rintro ⟨k, hk1, hk2⟩
      have hx : x * dir = frame * dir + (k : Int) * byN := by
        rw [hk1]; exact mul_dir_collect hdir k
      have hkb : 0 ≤ (k : Int) * byN := mul_nonneg (Int.natCast_nonneg k) (by omega)
      omega

theorem pyRange_mem (a b : Int) (hab : a ≤ b) (x : Int) :
    x ∈ pyRange a b ↔ a ≤ x ∧ x ≤ b := by
  unfold pyRange
  simp only [List.mem_map, List.mem_range]
  constructor
  · rintro ⟨k, hk, rfl⟩
    omega
  · rintro ⟨h1, h2⟩
    exact ⟨(x - a).toNat, by omega, by omega⟩

theorem FrameRangeToFrames_single (t : List Char) (fs : List Int)
    (hn : ∀ c ∈ t, noSepChar c) (hp : processToken t = .ok fs) :
    FrameRangeToFrames t = .ok (List.insertionSort (fun x y => x ≤ y) fs.dedup) := by
  have hsplit : reSplitWsCommas t = [t] := by
    unfold reSplitWsCommas
    simpa using splitRe_no_sep t [] hn
  unfold FrameRangeToFrames
  rw [hsplit]
  simp [collectFrames, hp, Bind.bind, Except.bind]

theorem mem_sortDedup (fs : List Int) (x : Int) :
    x ∈ List.insertionSort (fun x y => x ≤ y) fs.dedup ↔ x ∈ fs := by
  rw [List.mem_insertionSort, List.mem_dedup]

theorem matchStepGroup_nil : matchStepGroup [] = none := rfl

theorem processToken_range (a b : Int) :
    processToken (intToStr a ++ '-' :: intToStr b) = .ok (pyRange a b) := by
  have hlen : (intToStr a ++ '-' :: intToStr b).length > 0 := by simp
  rw [processToken.eq_def, if_pos hlen, findDash1_intToStr a (intToStr b)]
  have htake : (intToStr a ++ '-' :: intToStr b).take (intToStr a).length = intToStr a :=
    List.take_left _ _
  have hdrop : (intToStr a ++ '-' :: intToStr b).drop ((intToStr a).length + 1) =
      intToStr b := by
    have h1 : intToStr a ++ '-' :: intToStr b = (intToStr a ++ ['-']) ++ intToStr b := by
      simp
    have h2 : (intToStr a).length + 1 = (intToStr a ++ ['-']).length := by simp
    rw [h1, h2, List.drop_left]
  simp only [htake, hdrop, pyInt_intToStr]
  have hm : matchEndPart (intToStr b) = some (b, none) := by
    have h0 := matchEndPart_intToStr b [] rfl rfl
    simpa [matchStepGroup_nil] using h0
  rw [hm]

theorem processToken_step (a b : Int) (s : Nat) (w : List Char) (hw : w ∈ stepSeparators)
    (hs : s ≠ 0) :
    processToken (intToStr a ++ '-' :: (intToStr b ++ (w ++ natToStr s))) =
      .ok (stepLoop (((b - a) * (if a > b then -1 else 1)).toNat + 1) a b
        (if a > b then -1 else 1) ((s : Int) * (if a > b then -1 else 1))) := by
  have hlen : (intToStr a ++ '-' :: (intToStr b ++ (w ++ natToStr s))).length > 0 := by simp
  rw [processToken.eq_def, if_pos hlen,
    findDash1_intToStr a (intToStr b ++ (w ++ natToStr s))]
  have htake : (intToStr a ++ '-' :: (intToStr b ++ (w ++ natToStr s))).take
      (intToStr a).length = intToStr a := List.take_left _ _
  have hdrop : (intToStr a ++ '-' :: (intToStr b ++ (w ++ natToStr s))).drop
      ((intToStr a).length + 1) = intToStr b ++ (w ++ natToStr s) := by
    have h1 : intToStr a ++ '-' :: (intToStr b ++ (w ++ natToStr s)) =
        (intToStr a ++ ['-']) ++ (intToStr b ++ (w ++ natToStr s)) := by simp
    have h2 : (intToStr a).length + 1 = (intToStr a ++ ['-']).length := by simp
    rw [h1, h2, List.drop_left]
  obtain ⟨hh, hd⟩ := sep_head_not_digit w hw (natToStr s)
  simp only [htake, hdrop, pyInt_intToStr]
  rw [show intToStr b ++ (w ++ natToStr s) = intToStr b ++ (w ++ natToStr s) from rfl]
  rw [matchEndPart_intToStr b (w ++ natToStr s) hh hd,
    matchStepGroup_word w hw s]
  have hcond : ¬(s = 0 ∧
      a * (if a > b then -1 else 1) ≤ b * (if a > b then -1 else 1)) := by
    rintro ⟨h0, _⟩
    exact hs h0
  exact if_neg hcond

theorem token_range_noSep (a b : Int) :
    ∀ c ∈ intToStr a ++ '-' :: intToStr b, noSepChar c := by
  intro c hc
  rcases List.mem_append.mp hc with h | h
  · exact intToStr_noSep a c h
  · rcases List.mem_cons.mp h with h1 | h1
    · subst h1; exact ⟨by decide, by decide⟩
    · exact intToStr_noSep b c h1

theorem sep_word_noSep : ∀ w ∈ stepSeparators, ∀ c ∈ w, noSepChar c := by
  intro w hw
  simp only [stepSeparators, List.mem_cons, List.not_mem_nil, or_false] at hw
  rcases hw with h | h | h | h <;> (subst h; decide)

theorem natToStr_noSep (n : Nat) : ∀ c ∈ natToStr n, noSepChar c :=
  fun c hc => digit_noSep (natToStr_all_digits n c hc)

theorem token_step_noSep (a b : Int) (s : Nat) (w : List Char) (hw : w ∈ stepSeparators) :
    ∀ c ∈ intToStr a ++ '-' :: (intToStr b ++ (w ++ natToStr s)), noSepChar c := by
  intro c hc
  rcases List.mem_append.mp hc with h | h
  · exact intToStr_noSep a c h
  · rcases List.mem_cons.mp h with h1 | h1
    · subst h1; exact ⟨by decide, by decide⟩
    · rcases List.mem_append.mp h1 with h2 | h2
      · exact intToStr_noSep b c h2
      · rcases List.mem_append.mp h2 with h3 | h3
        · exact sep_word_noSep w hw c h3
        · exact natToStr_noSep s c h3

/-- Claim C3: for a token `"a-b"` (integers `a ≤ b`, no step suffix)
`FrameRangeToFrames` returns exactly the integers from `a` to `b`
inclusive; for a token `"a-b<sep>s"` with separator `x`/`step`/`by`/
`every` and positive step `s`, the result contains exactly
`a, a+s, a+2s, ...` up to and not beyond `b` when `a ≤ b`, and
`a, a-s, a-2s, ...` down to and not below `b` when `a > b`. -/
theorem FrameRangeToFrames_token_expansion :
    (∀ a b : Int, a ≤ b →
      ∃ l, FrameRangeToFrames (intToStr a ++ '-' :: intToStr b) = .ok l ∧
        ∀ x : Int, x ∈ l ↔ a ≤ x ∧ x ≤ b) ∧
    (∀ (a b : Int) (s : Nat), 1 ≤ s → ∀ w ∈ stepSeparators,
      ∃ l, FrameRangeToFrames (intToStr a ++ '-' :: (intToStr b ++ (w ++ natToStr s))) =
          .ok l ∧
        ∀ x : Int, x ∈ l ↔
          ∃ k : Nat, if a ≤ b then x = a + (k : Int) * (s : Int) ∧ x ≤ b
            else x = a - (k : Int) * (s : Int) ∧ b ≤ x) := by
  constructor
  · intro a b hab
    refine ⟨_, FrameRangeToFrames_single _ _ (token_range_noSep a b)
      (processToken_range a b), fun x => ?_⟩
    rw [mem_sortDedup]
    exact pyRange_mem a b hab x
  · intro a b s hs w hw
    refine ⟨_, FrameRangeToFrames_single _ _ (token_step_noSep a b s w hw)
      (processToken_step a b s w hw (by omega)), fun x => ?_⟩
    rw [mem_sortDedup]
    by_cases hab : a ≤ b
    · have hd : (if a > b then (-1 : Int) else 1) = 1 := by
        rw [if_neg (by omega)]
      rw [hd]
      have hfuel : ((b * 1 - a * 1).toNat < ((b - a) * 1).toNat + 1 ∨ b * 1 < a * 1) := by
        left; omega
      rw [stepLoop_mem (s : Int) (by exact_mod_cast hs) 1 (Or.inl rfl) _ a b hfuel x]
      refine exists_congr (fun k => ?_)
      rw [if_pos hab]
      constructor
      · rintro ⟨h1, h2⟩
        exact ⟨by rw [h1]; ring, by omega⟩
      · rintro ⟨h1, h2⟩
        exact ⟨by rw [h1]; ring, by omega⟩
    · have hd : (if a > b then (-1 : Int) else 1) = -1 := by
        rw [if_pos (by omega)]
      rw [hd]
      have hfuel : ((b * -1 - a * -1).toNat < ((b - a) * -1).toNat + 1 ∨ b * -1 < a * -1) := by
        left; omega
      rw [stepLoop_mem (s : Int) (by exact_mod_cast hs) (-1) (Or.inr rfl) _ a b hfuel x]
      refine exists_congr (fun k => ?_)
      rw [if_neg hab]
      constructor
      · rintro ⟨h1, h2⟩
        exact ⟨by rw [h1]; ring, by omega⟩
      · rintro ⟨h1, h2⟩
        exact ⟨by rw [h1]; ring, by omega⟩

/-- Claim C9: whenever `FrameRangeToFrames` completes normally, the
returned list is duplicate-free and sorted in strictly increasing order
(strict pairwise `<`), whatever the order, overlap or repetition of the
input's tokens. -/
theorem FrameRangeToFrames_sorted_nodup (s : List Char) (l : List Int)
    (h : FrameRangeToFrames s = .ok l) : List.Pairwise (fun a b => a < b) l := by
  unfold FrameRangeToFrames at h
  cases hc : collectFrames (reSplitWsCommas s) with
  | error e => rw [hc] at h; simp [Bind.bind, Except.bind] at h
  | ok frames =>
    rw [hc] at h
    simp only [Bind.bind, Except.bind, Except.ok.injEq] at h
    subst h
    have hsorted : List.Pairwise (fun x y : Int => x ≤ y)
        (List.insertionSort (fun x y => x ≤ y) frames.dedup) :=
      List.sorted_insertionSort _ _
    have hnodup : (List.insertionSort (fun x y => x ≤ y) frames.dedup).Nodup :=
      ((List.perm_insertionSort _ _).nodup_iff).mpr (List.nodup_dedup frames)
    exact (List.Pairwise.and hsorted hnodup).imp (fun h => lt_of_le_of_ne h.1 h.2)

/-- Witness for C3 at the concrete token `"1-9x2"`. -/
theorem frameRange_c3_witness :
    (intToStr 1 ++ '-' :: (intToStr 9 ++ (("x").toList ++ natToStr 2)) = ("1-9x2").toList) ∧
    (∃ l, FrameRangeToFrames (intToStr 1 ++ '-' :: (intToStr 9 ++ (("x").toList ++ natToStr 2))) =
        .ok l ∧
      ∀ x : Int, x ∈ l ↔
        ∃ k : Nat, if (1 : Int) ≤ (9 : Int) then x = 1 + (k : Int) * ((2 : Nat) : Int) ∧ x ≤ 9
          else x = 1 - (k : Int) * ((2 : Nat) : Int) ∧ (9 : Int) ≤ x) :=
  ⟨by decide, FrameRangeToFrames_token_expansion.2 1 9 2 (by decide) ("x").toList (by decide)⟩

/-- Witness for C9 at the concrete input `"3,1,3"`, whose duplicates and
unordered tokens collapse to the sorted `[1, 3]`. -/
theorem frameRange_c9_witness :
    List.Pairwise (fun a b : Int => a < b) [1, 3] :=
  FrameRangeToFrames_sorted_nodup ("3,1,3").toList [1, 3] (by rfl)

/-! ### Claims C4 and C7 -/

/-- Claim C4: `init_app` registers exactly one menu command, with
caption `"R8S Publish"`, on the host engine, and
`create_publish_manager` returns a new instance made by calling the
`PublishManager` class imported and stored during `init_app`. -/
theorem init_app_spec {M : Type} (tk : TkMultiPublish2Module M) (app : R8SPublishApp M) :
    (init_app tk app).engine.commands = app.engine.commands ++ ["R8S Publish"] ∧
    create_publish_manager (init_app tk app) = some (tk.PublishManager ()) :=
  ⟨rfl, rfl⟩

/-- Claim C7: whenever `accept` completes it returns exactly the
dictionary `{"accepted": True}` — it never declines an item and never
sets the optional `enabled`, `visible` or `checked` keys. -/
theorem accept_spec (env : HookEnv) (settings : Settings) (item : Item) :
    (accept env settings item).2 =
      { accepted := true, enabled := none, visible := none, checked := none } :=
  rfl

/-! ### Claim C8 (corrected) -/

/-- Counterexample to claim C8 as stated: with no explicit
`publish_version`, a work template that validates the path but extracts
an *empty* fields dict (which of course contains no `"version"` key),
the claim predicts `None`; but `if work_fields:` is false for the empty
dict, so the code takes the path-info fallback and returns `1`. -/
theorem get_publish_version_empty_fields_cex :
    emptyFieldsTemplate.validate "w" = true ∧
    emptyFieldsTemplate.get_fields "w" = [] ∧
    ({ plainItem with workTemplate := some emptyFieldsTemplate } : Item).publishVersionProp
      = none ∧
    trivialHookEnv.get_version_number "w" = none ∧
    get_publish_version trivialHookEnv
      { plainItem with workTemplate := some emptyFieldsTemplate } = some 1 :=
  ⟨rfl, rfl, rfl, rfl, rfl⟩

/-- Claim C8 (amended): `get_publish_version` returns `None` (not the
fallback `1`) whenever no explicit `publish_version` property is set, a
work template is present and validates the path, and the extracted
fields are **non-empty** and contain no `"version"` key; under those
conditions (non-empty fields) the result is exactly the fields'
`"version"` lookup; and the path-info fallback (yielding `1` when no
version is detected) is reached exactly when no fields were extracted
**or the extracted fields dict is empty**. -/
theorem get_publish_version_spec (env : HookEnv) (item : Item) :
    (∀ wt, item.publishVersionProp = none →
      item.workTemplate = some wt →
      wt.validate item.path = true →
      wt.get_fields item.path ≠ [] →
      lookupField (wt.get_fields item.path) "version" = none →
      get_publish_version env item = none) ∧
    (∀ wt, item.publishVersionProp = none →
      item.workTemplate = some wt →
      wt.validate item.path = true →
      wt.get_fields item.path ≠ [] →
      get_publish_version env item = lookupField (wt.get_fields item.path) "version") ∧
    (item.publishVersionProp = none →
      (∀ wt, item.workTemplate = some wt →
        wt.validate item.path = false ∨ wt.get_fields item.path = []) →
      get_publish_version env item = some ((env.get_version_number item.path).getD 1)) := by
  have hmain : ∀ wt, item.publishVersionProp = none →
      item.workTemplate = some wt →
      wt.validate item.path = true →
      wt.get_fields item.path ≠ [] →
      get_publish_version env item = lookupField (wt.get_fields item.path) "version" := by
    intro wt h0 h1 h2 h3
    unfold get_publish_version
    rw [h0]
    simp only [pyTruthyIntOpt, if_false, h1, h2, if_true]
    rw [if_pos h3]
    simp
  refine ⟨?_, hmain, ?_⟩
  · intro wt h0 h1 h2 h3 h4
    rw [hmain wt h0 h1 h2 h3, h4]
  · intro h0 h2
    unfold get_publish_version
    rw [h0]
    simp only [pyTruthyIntOpt, if_false]
    cases hwt : item.workTemplate with
    | none => simp
    | some wt =>
      rcases h2 wt hwt with h | h
      · simp [h]
      · by_cases hv : wt.validate item.path = true
        · simp [hv, h]
        · simp [hv]

/-- Witness for C8's amended main clause: non-empty fields without a
`"version"` key yield `None`. -/
theorem get_publish_version_spec_witness :
    get_publish_version trivialHookEnv
      { plainItem with workTemplate := some noVersionTemplate } = none :=
  (get_publish_version_spec trivialHookEnv
      { plainItem with workTemplate := some noVersionTemplate }).1
    noVersionTemplate rfl rfl rfl (by decide) rfl


/-! ### Claim C2 (corrected) -/

/-- Counterexample to claim C2 as stated: the claim partitions the
inputs into (a) versioned template paths, (b) `path is None`, and
(c) "otherwise — fall back to the path-info hook".  The empty string is
in the claim's case (c), and a configured path-info hook that detects
version `1` in it would make the claim predict version `2`; but
`if not path:` is true for `""` just as for `None`, so the code returns
`(None, None)` without consulting the hook. -/
theorem get_next_version_info_empty_path_cex :
    versionOneHookEnv.get_version_number "" = some 1 ∧
    plainItem.workTemplate = none ∧
    get_next_version_info versionOneHookEnv plainItem (some "") = (none, none) :=
  ⟨rfl, rfl, rfl⟩

/-- Claim C2 (amended): for every non-empty path validated by the
item's work template whose extracted fields contain a `"version"` key,
`_get_next_version_info` returns the template re-applied with
`version + 1` paired with `version + 1`; if the path is `None` **or
empty** it returns `(None, None)`; otherwise it falls back to the
path-info hook, with version `current + 1` when a current version is
detected and `None` when not. -/
theorem get_next_version_info_spec (env : HookEnv) (item : Item) :
    (∀ p wt v, item.workTemplate = some wt → p ≠ "" →
      wt.validate p = true →
      lookupField (wt.get_fields p) "version" = some v →
      get_next_version_info env item (some p) =
        (some (wt.apply_fields (setField (wt.get_fields p) "version" (v + 1))),
         some (v + 1))) ∧
    (∀ path, path = none ∨ path = some "" →
      get_next_version_info env item path = (none, none)) ∧
    (∀ p, p ≠ "" →
      (∀ wt, item.workTemplate = some wt →
        wt.validate p = false ∨ lookupField (wt.get_fields p) "version" = none) →
      get_next_version_info env item (some p) =
        (env.get_next_version_path p,
         (env.get_version_number p).map (fun c => c + 1))) := by
  refine ⟨?_, ?_, ?_⟩
  · intro p wt v h1 hp h2 h3
    have hnp : ¬(some p = (none : Option String) ∨ some p = some "") := by
      simp [hp]
    unfold get_next_version_info
    rw [if_neg hnp]
    have hfs : wt.get_fields p ≠ [] := by
      intro hnil
      rw [hnil] at h3
      simp [lookupField] at h3
    simp only [h1, Option.getD_some]
    rw [h2]
    simp only [if_true]
    rw [if_pos ⟨hfs, by rw [h3]; simp⟩, h3]
  · intro path hpath
    unfold get_next_version_info
    rw [if_pos hpath]
  · intro p hp h2
    have hnp : ¬(some p = (none : Option String) ∨ some p = some "") := by
      simp [hp]
    unfold get_next_version_info
    rw [if_neg hnp]
    have hmap : (match env.get_version_number p with
        | some cur => some (cur + 1)
        | none => none) = (env.get_version_number p).map (fun c => c + 1) := by
      cases env.get_version_number p <;> rfl
    cases hwt : item.workTemplate with
    | none => simp [hmap]
    | some wt =>
      rcases h2 wt hwt with h | h
      · simp [h, hmap]
      · by_cases hv : wt.validate p = true
        · simp [hv, h, hmap]
        · simp [hv, hmap]

/-- Witness for C2's amended template clause: `{"version": 3}` is
bumped to `4`. -/
theorem get_next_version_info_spec_witness :
    get_next_version_info trivialHookEnv
      { plainItem with workTemplate := some versionThreeTemplate } (some "w") =
      (some "next", some 4) :=
  (get_next_version_info_spec trivialHookEnv
      { plainItem with workTemplate := some versionThreeTemplate }).1
    "w" versionThreeTemplate 3 rfl (by decide) rfl rfl

/-! ### Claim C1 (corrected) -/

theorem gppr_entity_none (env : HookEnv) (settings : Settings) (item : Item)
    (h : item.contextEntity = none) :
    get_publish_path_r8s env settings item =
      .error "AttributeError: NoneType object has no attribute get" := by
  simp [get_publish_path_r8s, h]

theorem gppr_int_none (env : HookEnv) (settings : Settings) (item : Item) (ent : Entity)
    (h1 : item.contextEntity = some ent)
    (h2 : env.context_from_path_entity item.path ≠ some ent)
    (h3 : settings.publishVersion = none) :
    get_publish_path_r8s env settings item =
      .error "TypeError: int() argument cannot be NoneType" := by
  simp [get_publish_path_r8s, h1, h2, h3, intOfSettingValue, Bind.bind, Except.bind]

theorem gppr_ok_same (env : HookEnv) (settings : Settings) (item : Item) (ent : Entity)
    (h1 : item.contextEntity = some ent)
    (h2 : env.context_from_path_entity item.path = some ent) :
    ∃ info, get_publish_path_r8s env settings item = .ok info := by
  simp only [get_publish_path_r8s, h1, h2, if_true, Bind.bind, Except.bind, pure]
  exact ⟨_, rfl⟩

theorem gppr_ok_diff (env : HookEnv) (settings : Settings) (item : Item) (ent : Entity)
    (v : Int) (h1 : item.contextEntity = some ent)
    (h3 : settings.publishVersion = some v) :
    ∃ info, get_publish_path_r8s env settings item = .ok info := by
  by_cases h2 : env.context_from_path_entity item.path = some ent
  · exact gppr_ok_same env settings item ent h1 h2
  · simp only [get_publish_path_r8s, h1, h2, if_false, h3, intOfSettingValue,
      Bind.bind, Except.bind, pure]
    exact ⟨_, rfl⟩

theorem validate_of_gppr_error (env : HookEnv) (settings : Settings) (item : Item)
    (e : String) (h : get_publish_path_r8s env settings item = .error e) :
    validate env settings item = .error e := by
  simp [validate, h, Bind.bind, Except.bind]

theorem validate_of_gppr_ok (env : HookEnv) (settings : Settings) (item : Item)
    (info : String × String) (h : get_publish_path_r8s env settings item = .ok info) :
    validate env settings item =
      (if item.contextEntity = none then
        .error "You Need to Link Publish element to Shot or Asset"
      else if env.get_conflicting_publishes item.contextEntity info.2 info.1 ≠ [] then
        if item.workTemplate.isSome || item.publishTemplate.isSome then
          .error "Can not validate file path. There is already a publish in Shotgun that matches this path. Please uncheck this plugin or save the file to a different path."
        else .ok true
      else .ok true) := by
  simp only [validate, h, Bind.bind, Except.bind, pure, Except.pure]

theorem conflictsOf_of_ok (env : HookEnv) (settings : Settings) (item : Item)
    (info : String × String) (h : get_publish_path_r8s env settings item = .ok info) :
    conflictsOf env settings item =
      env.get_conflicting_publishes item.contextEntity info.2 info.1 := by
  simp [conflictsOf, h]

theorem conflictsOf_of_error (env : HookEnv) (settings : Settings) (item : Item)
    (e : String) (h : get_publish_path_r8s env settings item = .error e) :
    conflictsOf env settings item = [] := by
  simp [conflictsOf, h]

theorem validate_spec_aux (env : HookEnv) (settings : Settings) (item : Item)
    (ent : Entity) (info : String × String)
    (hent : item.contextEntity = some ent)
    (hg : get_publish_path_r8s env settings item = .ok info) :
    ((∃ e, validate env settings item = .error e) ↔
      (conflictsOf env settings item ≠ [] ∧
        (item.workTemplate.isSome || item.publishTemplate.isSome) = true)) ∧
    (∀ b, validate env settings item = .ok b → b = true) := by
  have hv := validate_of_gppr_ok env settings item info hg
  have hc := conflictsOf_of_ok env settings item info hg
  rw [hent] at hv hc
  simp only [reduceCtorEq, if_false] at hv
  rw [hc]
  by_cases hconf : env.get_conflicting_publishes (some ent) info.2 info.1 ≠ []
  · rw [if_pos hconf] at hv
    by_cases htmp : (item.workTemplate.isSome || item.publishTemplate.isSome) = true
    · rw [if_pos htmp] at hv
      constructor
      · exact ⟨fun _ => ⟨hconf, htmp⟩, fun _ => ⟨_, hv⟩⟩
      · intro b hb
        rw [hv] at hb
        exact absurd hb (by simp)
    · rw [if_neg htmp] at hv
      constructor
      · constructor
        · rintro ⟨e, he⟩
          rw [hv] at he
          exact absurd he (by simp)
        · rintro ⟨_, h2⟩
          exact absurd h2 htmp
      · intro b hb
        rw [hv] at hb
        simpa using hb.symm
  · rw [if_neg hconf] at hv
    constructor
    · constructor
      · rintro ⟨e, he⟩
        rw [hv] at he
        exact absurd he (by simp)
      · rintro ⟨h1, _⟩
        exact absurd h1 hconf
    · intro b hb
      rw [hv] at hb
      simpa using hb.symm

/-- Claim C1 (amended): `validate` raises if and only if (a) the item's
context has no entity (the `AttributeError` from the unconditional
`item.context.entity.get('type')` in `_get_publish_path`, before the
dedicated check of line 386 is reached), or (a') the `Publish Version`
setting's value is `None` — as `accept` leaves it when no version could
be determined — while the item's path resolves to an entity different
from the context's, so `int(None)` of line 1077 raises `TypeError`, or
(b) the conflicting-publish query for the resolved publish path and
name returns a non-empty list while a `work_template` property is
present or a publish template is set; in every other case — including
conflicting publishes with neither template set, where it only warns —
`validate` completes normally and returns `True`. -/
theorem validate_spec (env : HookEnv) (settings : Settings) (item : Item) :
    ((∃ e, validate env settings item = .error e) ↔
      (item.contextEntity = none
        ∨ (∃ ent, item.contextEntity = some ent ∧
            env.context_from_path_entity item.path ≠ some ent ∧
            settings.publishVersion = none)
        ∨ (conflictsOf env settings item ≠ [] ∧
            (item.workTemplate.isSome || item.publishTemplate.isSome) = true))) ∧
    (∀ b, validate env settings item = .ok b → b = true) := by
  cases hent : item.contextEntity with
  | none =>
    have hv := validate_of_gppr_error env settings item _
      (gppr_entity_none env settings item hent)
    constructor
    · exact ⟨fun _ => Or.inl rfl, fun _ => ⟨_, hv⟩⟩
    · intro b hb
      rw [hv] at hb
      exact absurd hb (by simp)
  | some ent =>
    by_cases hpe : env.context_from_path_entity item.path = some ent
    · obtain ⟨info, hg⟩ := gppr_ok_same env settings item ent hent hpe
      obtain ⟨haux1, haux2⟩ := validate_spec_aux env settings item ent info hent hg
      refine ⟨?_, haux2⟩
      rw [haux1]
      constructor
      · exact fun h => Or.inr (Or.inr h)
      · rintro (h | ⟨ent', hent', hpe', _⟩ | h)
        · exact absurd h (by simp)
        · simp only [Option.some.injEq] at hent'
          subst hent'
          exact absurd hpe hpe'
        · exact h
    · cases hpv : settings.publishVersion with
      | none =>
        have hv := validate_of_gppr_error env settings item _
          (gppr_int_none env settings item ent hent hpe hpv)
        constructor
        · exact ⟨fun _ => Or.inr (Or.inl ⟨ent, rfl, hpe, rfl⟩), fun _ => ⟨_, hv⟩⟩
        · intro b hb
          rw [hv] at hb
          exact absurd hb (by simp)
      | some v =>
        obtain ⟨info, hg⟩ := gppr_ok_diff env settings item ent v hent hpv
        obtain ⟨haux1, haux2⟩ := validate_spec_aux env settings item ent info hent hg
        refine ⟨?_, haux2⟩
        rw [haux1]
        constructor
        · exact fun h => Or.inr (Or.inr h)
        · rintro (h | ⟨ent', hent', _, hpv'⟩ | h)
          · exact absurd h (by simp)
          · exact absurd hpv' (by simp)
          · exact h

/-- Counterexample to claim C1 as stated: an item with a linked entity,
no conflicting publishes, and no templates — the claim says `validate`
completes normally and returns `True` — but with the `Publish Version`
setting holding `None` (what `accept` stores when no version can be
determined) and a path resolving to a different context, the `int()`
coercion of `_get_publish_path` line 1077 raises first. -/
theorem validate_int_none_cex :
    ({ plainItem with contextEntity := some shotEntity } : Item).contextEntity ≠ none ∧
    trivialHookEnv.context_from_path_entity "w" = none ∧
    conflictsOf trivialHookEnv { defaultSettings with publishVersion := none }
      { plainItem with contextEntity := some shotEntity } = [] ∧
    validate trivialHookEnv { defaultSettings with publishVersion := none }
      { plainItem with contextEntity := some shotEntity } =
      .error "TypeError: int() argument cannot be NoneType" :=
  ⟨fun h => Option.noConfusion h, rfl, rfl, rfl⟩

/-- Witness for C1's iff at a concrete item with no context entity:
`validate` raises. -/
theorem validate_spec_witness :
    ∃ e, validate trivialHookEnv defaultSettings plainItem = .error e :=
  (validate_spec trivialHookEnv defaultSettings plainItem).1.mpr (Or.inl rfl)
